import Mathlib

/-!
Verification of the Yetify strategy-storage contract
(src/yetify-contracts/strategy-storage/src/lib.rs).

The contract keeps a map from string ids to strategy records plus a
derived counter, and exposes create / update / delete / lookup operations
guarded by a creator-equality check.  We embed the data model and the
five mutating/reading operations shallowly:

* `AccountId` is a plain identity string (the host authenticates it).
* `u64` timestamps and the counter become `Nat`; the counter is only
  ever decremented after a successful lookup, and we prove separately
  that in every reachable state it dominates the map size, so truncated
  subtraction coincides with the u64 subtraction of the source.
* `f64` payload fields are never inspected, compared or computed with by
  the contract; we carry them as their raw 64-bit patterns (`F64`).
* The JSON deserializer is an external collaborator: operations that
  take a `strategy_json : String` in Rust take the parse outcome
  `Except String StrategyData` here, the error carrying serde's
  diagnostic text.
* The `HashMap<String, StrategyData>` becomes an association list with
  at most one entry per key; `mapInsert` replaces in place exactly as
  `HashMap::insert`, `mapRemove` removes the entry as `HashMap::remove`.
-/

/-- Identity string of a NEAR account (`near_sdk::AccountId`). -/
abbrev AccountId := String

/-- An `f64` payload value, carried as its 64-bit pattern: the contract
never branches on, compares or computes with these fields. -/
structure F64 where
  bits : Nat
deriving DecidableEq

/-- One action of a plan (`StrategyStep` in lib.rs). -/
structure StrategyStep where
  action : String
  protocol : String
  asset : String
  expected_apy : Option F64
  amount : Option String
deriving DecidableEq

/-- The stored record (`StrategyData` in lib.rs). -/
structure StrategyData where
  id : String
  goal : String
  chains : List String
  protocols : List String
  steps : List StrategyStep
  risk_level : String
  estimated_apy : Option F64
  estimated_tvl : Option String
  confidence : Option F64
  reasoning : Option String
  warnings : Option (List String)
  creator : AccountId
  created_at : Nat
deriving DecidableEq

/-- The strategies mapping: association list with unique keys. -/
abbrev StrategyMap := List (String × StrategyData)

/-- `HashMap::get`: the value stored under `k`, if any. -/
def mapGet (m : StrategyMap) (k : String) : Option StrategyData :=
  match m with
  | [] => none
  | p :: rest => if p.1 = k then some p.2 else mapGet rest k

/-- `HashMap::insert`: replace the entry for `k` if present, else add one. -/
def mapInsert (m : StrategyMap) (k : String) (v : StrategyData) : StrategyMap :=
  match m with
  | [] => [(k, v)]
  | p :: rest => if p.1 = k then (k, v) :: rest else p :: mapInsert rest k v

/-- `HashMap::remove`: drop the entry for `k`, if any. -/
def mapRemove (m : StrategyMap) (k : String) : StrategyMap :=
  match m with
  | [] => []
  | p :: rest => if p.1 = k then rest else p :: mapRemove rest k

/-- Contract state (`YetifyStrategyStorage` in lib.rs). -/
structure YetifyStrategyStorage where
  strategies : StrategyMap
  strategy_count : Nat
deriving DecidableEq

/-- `Default` for the contract state: empty map, zero count. -/
def initState : YetifyStrategyStorage := { strategies := [], strategy_count := 0 }

/-- The single-quote character, spelled by code point. -/
def sqc : String := String.singleton (Char.ofNat 39)

def errParse (err : String) : String :=
  "Error: Failed to parse strategy JSON - " ++ err

def errIdRequired : String := "Error: Strategy ID is required"

def errNotFound (id : String) : String :=
  "Error: Strategy " ++ sqc ++ id ++ sqc ++ " not found"

def errForbiddenUpdate : String :=
  "Error: Only the strategy creator can update this strategy"

def errForbiddenDelete : String :=
  "Error: Only the strategy creator can delete this strategy"

def msgStoredComplete (id : String) (total : Nat) : String :=
  "Complete strategy " ++ sqc ++ id ++ sqc ++ " stored successfully! Total strategies: "
    ++ toString total

def msgStored (id : String) : String :=
  "Strategy " ++ sqc ++ id ++ sqc ++ " stored successfully!"

def msgUpdated (id : String) : String :=
  "Strategy " ++ sqc ++ id ++ sqc ++ " updated successfully!"

def msgDeleted (id : String) (total : Nat) : String :=
  "Strategy " ++ sqc ++ id ++ sqc ++ " deleted successfully! Total strategies: "
    ++ toString total

/-- `store_complete_strategy` (lib.rs:62-91).  `creator` is
`env::predecessor_account_id()`, `timestamp` is `env::block_timestamp_ms()`,
and `parsed` is the outcome of `serde_json::from_str(&strategy_json)`. -/
def store_complete_strategy (s : YetifyStrategyStorage) (creator : AccountId)
    (timestamp : Nat) (parsed : Except String StrategyData) :
    YetifyStrategyStorage × String :=
  match parsed with
  | Except.error err => (s, errParse err)
  | Except.ok data =>
    if data.id = "" then
      (s, errIdRequired)
    else
      let strategy_data := { data with creator := creator, created_at := timestamp }
      let strategy_id := strategy_data.id
      let s := { strategies := mapInsert s.strategies strategy_id strategy_data,
                 strategy_count := s.strategy_count + 1 }
      (s, msgStoredComplete strategy_id s.strategy_count)

/-- `store_strategy` (lib.rs:94-118). -/
def store_strategy (s : YetifyStrategyStorage) (creator : AccountId)
    (timestamp : Nat) (id goal : String) : YetifyStrategyStorage × String :=
  let strategy_data : StrategyData :=
    { id := id, goal := goal, chains := [], protocols := [], steps := [],
      risk_level := "medium", estimated_apy := none, estimated_tvl := none,
      confidence := none, reasoning := none, warnings := none,
      creator := creator, created_at := timestamp }
  let s := { strategies := mapInsert s.strategies id strategy_data,
             strategy_count := s.strategy_count + 1 }
  (s, msgStored id)

/-- `get_strategy` (lib.rs:120-122). -/
def get_strategy (s : YetifyStrategyStorage) (id : String) : Option StrategyData :=
  mapGet s.strategies id

/-- `total_strategies` (lib.rs:124-126). -/
def total_strategies (s : YetifyStrategyStorage) : Nat :=
  s.strategy_count

/-- `get_contract_info` (lib.rs:128-130). -/
def get_contract_info (s : YetifyStrategyStorage) : String :=
  "Yetify Strategy Storage - Total strategies: " ++ toString s.strategy_count

/-- `update_strategy` (lib.rs:132-167). -/
def update_strategy (s : YetifyStrategyStorage) (caller : AccountId)
    (parsed : Except String StrategyData) : YetifyStrategyStorage × String :=
  match parsed with
  | Except.error err => (s, errParse err)
  | Except.ok data =>
    match mapGet s.strategies data.id with
    | none => (s, errNotFound data.id)
    | some existing_strategy =>
      if existing_strategy.creator ≠ caller then
        (s, errForbiddenUpdate)
      else
        let strategy_data := { data with creator := existing_strategy.creator,
                                         created_at := existing_strategy.created_at }
        let strategy_id := strategy_data.id
        ({ s with strategies := mapInsert s.strategies strategy_id strategy_data },
         msgUpdated strategy_id)

/-- `delete_strategy` (lib.rs:169-191).  The u64 decrement is modelled as
`Nat` subtraction; `count_dominates_entries` shows it never truncates in a
reachable state. -/
def delete_strategy (s : YetifyStrategyStorage) (caller : AccountId)
    (id : String) : YetifyStrategyStorage × String :=
  match mapGet s.strategies id with
  | none => (s, errNotFound id)
  | some existing_strategy =>
    if existing_strategy.creator ≠ caller then
      (s, errForbiddenDelete)
    else
      let s := { strategies := mapRemove s.strategies id,
                 strategy_count := s.strategy_count - 1 }
      (s, msgDeleted id s.strategy_count)

/-- `get_strategies_by_creator` (lib.rs:193-199). -/
def get_strategies_by_creator (s : YetifyStrategyStorage) (creator : AccountId) :
    List StrategyData :=
  (s.strategies.filter (fun p => p.2.creator == creator)).map Prod.snd

/-- `get_all_strategies` (lib.rs:201-203). -/
def get_all_strategies (s : YetifyStrategyStorage) : List StrategyData :=
  s.strategies.map Prod.snd

/-- One external call into the contract, with the environment data
(caller identity, block timestamp, parse outcome) it arrives with. -/
inductive Op where
  | storeComplete (caller : AccountId) (ts : Nat) (parsed : Except String StrategyData)
  | store (caller : AccountId) (ts : Nat) (id goal : String)
  | update (caller : AccountId) (parsed : Except String StrategyData)
  | delete (caller : AccountId) (id : String)

/-- The state after one call (the returned message dropped). -/
def step (s : YetifyStrategyStorage) (op : Op) : YetifyStrategyStorage :=
  match op with
  | Op.storeComplete caller ts parsed => (store_complete_strategy s caller ts parsed).1
  | Op.store caller ts id goal => (store_strategy s caller ts id goal).1
  | Op.update caller parsed => (update_strategy s caller parsed).1
  | Op.delete caller id => (delete_strategy s caller id).1

/-- The state after a sequence of calls. -/
def exec (s : YetifyStrategyStorage) : List Op → YetifyStrategyStorage
  | [] => s
  | op :: ops => exec (step s op) ops

/-- Does this call store a record under an id already present?  (Such a
call replaces the entry but still increments `strategy_count`.) -/
def isOverwrite (s : YetifyStrategyStorage) (op : Op) : Bool :=
  match op with
  | Op.storeComplete _ _ (Except.ok d) =>
      (! (d.id == "")) && (mapGet s.strategies d.id).isSome
  | Op.store _ _ id _ => (mapGet s.strategies id).isSome
  | _ => false

/-- How many calls of the sequence overwrite an existing id. -/
def overwrites (s : YetifyStrategyStorage) : List Op → Nat
  | [] => 0
  | op :: ops => (if isOverwrite s op then 1 else 0) + overwrites (step s op) ops

/-- The keys of the strategies mapping. -/
def mapKeys (m : StrategyMap) : List String := m.map Prod.fst

/-- Well-formedness of a contract state: one entry per key, and the
counter dominates the map size. -/
def Wf (s : YetifyStrategyStorage) : Prop :=
  (mapKeys s.strategies).Nodup ∧ s.strategies.length ≤ s.strategy_count

/-! ### Association-list lemmas -/

theorem mapKeys_nil : mapKeys ([] : StrategyMap) = [] := rfl

theorem mapKeys_cons (p : String × StrategyData) (rest : StrategyMap) :
    mapKeys (p :: rest) = p.1 :: mapKeys rest := rfl

theorem length_mapKeys (m : StrategyMap) : (mapKeys m).length = m.length := by
  simp [mapKeys]

theorem mapGet_eq_none_iff (m : StrategyMap) (k : String) :
    mapGet m k = none ↔ k ∉ mapKeys m := by
  induction m with
  | nil => simp [mapGet, mapKeys_nil]
  | cons p rest ih =>
    rw [mapKeys_cons]
    by_cases h : p.1 = k
    · subst h
      simp [mapGet]
    · simp only [mapGet, if_neg h, List.mem_cons, ih]
      constructor
      · intro hnk hor
        rcases hor with h1 | h2
        · exact h h1.symm
        · exact hnk h2
      · intro hn hk
        exact hn (Or.inr hk)

theorem mapGet_isSome_iff (m : StrategyMap) (k : String) :
    (mapGet m k).isSome = true ↔ k ∈ mapKeys m := by
  cases hm : mapGet m k with
  | none =>
    have hk := (mapGet_eq_none_iff m k).mp hm
    simp [hk]
  | some v =>
    have hne : ¬ mapGet m k = none := by rw [hm]; simp
    rw [mapGet_eq_none_iff] at hne
    push_neg at hne
    simp [hne]

theorem mapGet_mapInsert_self (m : StrategyMap) (k : String) (v : StrategyData) :
    mapGet (mapInsert m k v) k = some v := by
  induction m with
  | nil => simp [mapInsert, mapGet]
  | cons p rest ih =>
    by_cases h : p.1 = k
    · simp [mapInsert, mapGet, h]
    · simp [mapInsert, mapGet, h, ih]

theorem mapKeys_mapInsert_of_mem (m : StrategyMap) (k : String) (v : StrategyData)
    (h : k ∈ mapKeys m) : mapKeys (mapInsert m k v) = mapKeys m := by
  induction m with
  | nil => simp [mapKeys_nil] at h
  | cons p rest ih =>
    by_cases hp : p.1 = k
    · simp [mapInsert, hp, mapKeys_cons]
    · have hk : k ∈ mapKeys rest := by
        rw [mapKeys_cons] at h
        rcases List.mem_cons.mp h with h1 | h2
        · exact absurd h1.symm hp
        · exact h2
      simp only [mapInsert, if_neg hp, mapKeys_cons, ih hk]

theorem mapKeys_mapInsert_of_not_mem (m : StrategyMap) (k : String) (v : StrategyData)
    (h : k ∉ mapKeys m) : mapKeys (mapInsert m k v) = mapKeys m ++ [k] := by
  induction m with
  | nil => simp [mapInsert, mapKeys_nil, mapKeys_cons]
  | cons p rest ih =>
    have hp : p.1 ≠ k := by
      intro hpk
      apply h
      rw [mapKeys_cons, hpk]
      exact List.mem_cons_self k _
    have hk : k ∉ mapKeys rest := by
      intro hkr
      apply h
      rw [mapKeys_cons]
      exact List.mem_cons_of_mem _ hkr
    simp only [mapInsert, if_neg hp, mapKeys_cons, ih hk, List.cons_append]

theorem length_mapInsert_of_mem (m : StrategyMap) (k : String) (v : StrategyData)
    (h : k ∈ mapKeys m) : (mapInsert m k v).length = m.length := by
  have h1 := mapKeys_mapInsert_of_mem m k v h
  have h2 : (mapKeys (mapInsert m k v)).length = (mapKeys m).length := by rw [h1]
  rwa [length_mapKeys, length_mapKeys] at h2

theorem length_mapInsert_of_not_mem (m : StrategyMap) (k : String) (v : StrategyData)
    (h : k ∉ mapKeys m) : (mapInsert m k v).length = m.length + 1 := by
  have h1 := mapKeys_mapInsert_of_not_mem m k v h
  have h2 : (mapKeys (mapInsert m k v)).length = (mapKeys m).length + 1 := by
    rw [h1]; simp
  rwa [length_mapKeys, length_mapKeys] at h2

theorem nodup_mapKeys_mapInsert (m : StrategyMap) (k : String) (v : StrategyData)
    (h : (mapKeys m).Nodup) : (mapKeys (mapInsert m k v)).Nodup := by
  by_cases hk : k ∈ mapKeys m
  · rwa [mapKeys_mapInsert_of_mem m k v hk]
  · rw [mapKeys_mapInsert_of_not_mem m k v hk]
    rw [List.nodup_append]
    refine ⟨h, List.nodup_singleton k, ?_⟩
    intro a ha hak
    rcases List.mem_singleton.mp hak with rfl
    exact hk ha

theorem mapKeys_mapRemove_sublist (m : StrategyMap) (k : String) :
    (mapKeys (mapRemove m k)).Sublist (mapKeys m) := by
  induction m with
  | nil => simp [mapRemove, mapKeys_nil]
  | cons p rest ih =>
    by_cases h : p.1 = k
    · simp only [mapRemove, if_pos h, mapKeys_cons]
      exact List.sublist_cons_of_sublist _ (List.Sublist.refl _)
    · simp only [mapRemove, if_neg h, mapKeys_cons]
      exact List.Sublist.cons₂ _ ih

theorem nodup_mapKeys_mapRemove (m : StrategyMap) (k : String)
    (h : (mapKeys m).Nodup) : (mapKeys (mapRemove m k)).Nodup :=
  (mapKeys_mapRemove_sublist m k).nodup h

theorem mapGet_mapRemove_self (m : StrategyMap) (k : String)
    (h : (mapKeys m).Nodup) : mapGet (mapRemove m k) k = none := by
  induction m with
  | nil => simp [mapRemove, mapGet]
  | cons p rest ih =>
    rw [mapKeys_cons] at h
    have hparts := List.nodup_cons.mp h
    by_cases hp : p.1 = k
    · simp only [mapRemove, if_pos hp]
      rw [mapGet_eq_none_iff]
      rw [← hp]
      exact hparts.1
    · simp only [mapRemove, if_neg hp]
      simp [mapGet, hp, ih hparts.2]

theorem length_mapRemove_of_mem (m : StrategyMap) (k : String)
    (h : ¬ mapGet m k = none) : (mapRemove m k).length + 1 = m.length := by
  induction m with
  | nil => simp [mapGet] at h
  | cons p rest ih =>
    by_cases hp : p.1 = k
    · simp [mapRemove, hp]
    · have hr : ¬ mapGet rest k = none := by
        simpa [mapGet, hp] using h
      simp [mapRemove, hp, ih hr]

theorem one_le_length_of_mapGet_some (m : StrategyMap) (k : String) (v : StrategyData)
    (h : mapGet m k = some v) : 1 ≤ m.length := by
  cases m with
  | nil => simp [mapGet] at h
  | cons p rest => simp

/-! ### Shape of each operation on its success and failure paths -/

theorem store_complete_strategy_err (s : YetifyStrategyStorage) (c : AccountId)
    (ts : Nat) (e : String) :
    store_complete_strategy s c ts (Except.error e) = (s, errParse e) := rfl

theorem store_complete_strategy_empty_id (s : YetifyStrategyStorage) (c : AccountId)
    (ts : Nat) (d : StrategyData) (hid : d.id = "") :
    store_complete_strategy s c ts (Except.ok d) = (s, errIdRequired) := by
  simp [store_complete_strategy, hid]

theorem store_complete_strategy_ok (s : YetifyStrategyStorage) (c : AccountId)
    (ts : Nat) (d : StrategyData) (hid : d.id ≠ "") :
    store_complete_strategy s c ts (Except.ok d) =
      ({ strategies := mapInsert s.strategies d.id
           { d with creator := c, created_at := ts },
         strategy_count := s.strategy_count + 1 },
       msgStoredComplete d.id (s.strategy_count + 1)) := by
  simp [store_complete_strategy, hid]

theorem store_strategy_eq (s : YetifyStrategyStorage) (c : AccountId)
    (ts : Nat) (id goal : String) :
    store_strategy s c ts id goal =
      ({ strategies := mapInsert s.strategies id
           { id := id, goal := goal, chains := [], protocols := [], steps := [],
             risk_level := "medium", estimated_apy := none, estimated_tvl := none,
             confidence := none, reasoning := none, warnings := none,
             creator := c, created_at := ts },
         strategy_count := s.strategy_count + 1 },
       msgStored id) := rfl

theorem update_strategy_err (s : YetifyStrategyStorage) (caller : AccountId)
    (e : String) : update_strategy s caller (Except.error e) = (s, errParse e) := rfl

theorem update_strategy_not_found (s : YetifyStrategyStorage) (caller : AccountId)
    (d : StrategyData) (h : mapGet s.strategies d.id = none) :
    update_strategy s caller (Except.ok d) = (s, errNotFound d.id) := by
  simp [update_strategy, h]

theorem update_strategy_forbidden (s : YetifyStrategyStorage) (caller : AccountId)
    (d ex : StrategyData) (h : mapGet s.strategies d.id = some ex)
    (hc : ex.creator ≠ caller) :
    update_strategy s caller (Except.ok d) = (s, errForbiddenUpdate) := by
  simp [update_strategy, h, hc]

theorem update_strategy_ok (s : YetifyStrategyStorage) (caller : AccountId)
    (d ex : StrategyData) (h : mapGet s.strategies d.id = some ex)
    (hc : ex.creator = caller) :
    update_strategy s caller (Except.ok d) =
      ({ s with strategies := (mapInsert s.strategies d.id
           { d with creator := ex.creator, created_at := ex.created_at }) },
       msgUpdated d.id) := by
  simp [update_strategy, h, hc]

theorem delete_strategy_not_found (s : YetifyStrategyStorage) (caller : AccountId)
    (id : String) (h : mapGet s.strategies id = none) :
    delete_strategy s caller id = (s, errNotFound id) := by
  simp [delete_strategy, h]

theorem delete_strategy_forbidden (s : YetifyStrategyStorage) (caller : AccountId)
    (id : String) (ex : StrategyData) (h : mapGet s.strategies id = some ex)
    (hc : ex.creator ≠ caller) :
    delete_strategy s caller id = (s, errForbiddenDelete) := by
  simp [delete_strategy, h, hc]

theorem delete_strategy_ok (s : YetifyStrategyStorage) (caller : AccountId)
    (id : String) (ex : StrategyData) (h : mapGet s.strategies id = some ex)
    (hc : ex.creator = caller) :
    delete_strategy s caller id =
      ({ strategies := mapRemove s.strategies id,
         strategy_count := s.strategy_count - 1 },
       msgDeleted id (s.strategy_count - 1)) := by
  simp [delete_strategy, h, hc]

/-! ### The counter accounting invariant -/

theorem step_wf_accounting (s : YetifyStrategyStorage) (op : Op) (h : Wf s) :
    Wf (step s op) ∧
    (step s op).strategy_count + s.strategies.length =
      (step s op).strategies.length + s.strategy_count +
        (if isOverwrite s op then 1 else 0) := by
  obtain ⟨hnd, hle⟩ := h
  cases op with
  | storeComplete caller ts parsed =>
    simp only [step]
    cases parsed with
    | error e =>
      rw [store_complete_strategy_err]
      exact ⟨⟨hnd, hle⟩, by simp [isOverwrite]; omega⟩
    | ok d =>
      by_cases hid : d.id = ""
      · rw [store_complete_strategy_empty_id s caller ts d hid]
        exact ⟨⟨hnd, hle⟩, by simp [isOverwrite, hid]; omega⟩
      · rw [store_complete_strategy_ok s caller ts d hid]
        by_cases hmem : d.id ∈ mapKeys s.strategies
        · have hlen := length_mapInsert_of_mem s.strategies d.id
            { d with creator := caller, created_at := ts } hmem
          have hnd2 := nodup_mapKeys_mapInsert s.strategies d.id
            { d with creator := caller, created_at := ts } hnd
          have hov : isOverwrite s (Op.storeComplete caller ts (Except.ok d)) = true := by
            simp [isOverwrite, hid, mapGet_isSome_iff, hmem]
          rw [hov]
          refine ⟨⟨hnd2, ?_⟩, ?_⟩
          · show (mapInsert s.strategies d.id _).length ≤ s.strategy_count + 1
            omega
          · show s.strategy_count + 1 + s.strategies.length =
              (mapInsert s.strategies d.id _).length + s.strategy_count + 1
            omega
        · have hlen := length_mapInsert_of_not_mem s.strategies d.id
            { d with creator := caller, created_at := ts } hmem
          have hnd2 := nodup_mapKeys_mapInsert s.strategies d.id
            { d with creator := caller, created_at := ts } hnd
          have hnone : mapGet s.strategies d.id = none :=
            (mapGet_eq_none_iff s.strategies d.id).mpr hmem
          have hov : isOverwrite s (Op.storeComplete caller ts (Except.ok d)) = false := by
            simp [isOverwrite, hid, hnone]
          rw [hov]
          refine ⟨⟨hnd2, ?_⟩, ?_⟩
          · show (mapInsert s.strategies d.id _).length ≤ s.strategy_count + 1
            omega
          · show s.strategy_count + 1 + s.strategies.length =
              (mapInsert s.strategies d.id _).length + s.strategy_count + 0
            omega
  | store caller ts id goal =>
    simp only [step]
    rw [store_strategy_eq]
    by_cases hmem : id ∈ mapKeys s.strategies
    · have hlen := length_mapInsert_of_mem s.strategies id
        { id := id, goal := goal, chains := [], protocols := [], steps := [],
          risk_level := "medium", estimated_apy := none, estimated_tvl := none,
          confidence := none, reasoning := none, warnings := none,
          creator := caller, created_at := ts } hmem
      have hnd2 := nodup_mapKeys_mapInsert s.strategies id
        { id := id, goal := goal, chains := [], protocols := [], steps := [],
          risk_level := "medium", estimated_apy := none, estimated_tvl := none,
          confidence := none, reasoning := none, warnings := none,
          creator := caller, created_at := ts } hnd
      have hov : isOverwrite s (Op.store caller ts id goal) = true := by
        simp [isOverwrite, mapGet_isSome_iff, hmem]
      rw [hov]
      refine ⟨⟨hnd2, ?_⟩, ?_⟩
      · show (mapInsert s.strategies id _).length ≤ s.strategy_count + 1
        omega
      · show s.strategy_count + 1 + s.strategies.length =
          (mapInsert s.strategies id _).length + s.strategy_count + 1
        omega
    · have hlen := length_mapInsert_of_not_mem s.strategies id
        { id := id, goal := goal, chains := [], protocols := [], steps := [],
          risk_level := "medium", estimated_apy := none, estimated_tvl := none,
          confidence := none, reasoning := none, warnings := none,
          creator := caller, created_at := ts } hmem
      have hnd2 := nodup_mapKeys_mapInsert s.strategies id
        { id := id, goal := goal, chains := [], protocols := [], steps := [],
          risk_level := "medium", estimated_apy := none, estimated_tvl := none,
          confidence := none, reasoning := none, warnings := none,
          creator := caller, created_at := ts } hnd
      have hnone : mapGet s.strategies id = none :=
        (mapGet_eq_none_iff s.strategies id).mpr hmem
      have hov : isOverwrite s (Op.store caller ts id goal) = false := by
        simp [isOverwrite, hnone]
      rw [hov]
      refine ⟨⟨hnd2, ?_⟩, ?_⟩
      · show (mapInsert s.strategies id _).length ≤ s.strategy_count + 1
        omega
      · show s.strategy_count + 1 + s.strategies.length =
          (mapInsert s.strategies id _).length + s.strategy_count + 0
        omega
  | update caller parsed =>
    simp only [step]
    cases parsed with
    | error e =>
      rw [update_strategy_err]
      exact ⟨⟨hnd, hle⟩, by simp [isOverwrite]; omega⟩
    | ok d =>
      cases hm : mapGet s.strategies d.id with
      | none =>
        rw [update_strategy_not_found s caller d hm]
        exact ⟨⟨hnd, hle⟩, by simp [isOverwrite]; omega⟩
      | some ex =>
        by_cases hc : ex.creator = caller
        · rw [update_strategy_ok s caller d ex hm hc]
          have hmem : d.id ∈ mapKeys s.strategies := by
            rw [← mapGet_isSome_iff, hm]
            rfl
          have hlen := length_mapInsert_of_mem s.strategies d.id
            { d with creator := ex.creator, created_at := ex.created_at } hmem
          have hnd2 := nodup_mapKeys_mapInsert s.strategies d.id
            { d with creator := ex.creator, created_at := ex.created_at } hnd
          have hov : isOverwrite s (Op.update caller (Except.ok d)) = false := rfl
          rw [hov]
          refine ⟨⟨hnd2, ?_⟩, ?_⟩
          · show (mapInsert s.strategies d.id _).length ≤ s.strategy_count
            omega
          · show s.strategy_count + s.strategies.length =
              (mapInsert s.strategies d.id _).length + s.strategy_count + 0
            omega
        · rw [update_strategy_forbidden s caller d ex hm hc]
          exact ⟨⟨hnd, hle⟩, by simp [isOverwrite]; omega⟩
  | delete caller id =>
    simp only [step]
    cases hm : mapGet s.strategies id with
    | none =>
      rw [delete_strategy_not_found s caller id hm]
      exact ⟨⟨hnd, hle⟩, by simp [isOverwrite]; omega⟩
    | some ex =>
      by_cases hc : ex.creator = caller
      · rw [delete_strategy_ok s caller id ex hm hc]
        have hne : ¬ mapGet s.strategies id = none := by rw [hm]; simp
        have hlen := length_mapRemove_of_mem s.strategies id hne
        have hone := one_le_length_of_mapGet_some s.strategies id ex hm
        have hnd2 := nodup_mapKeys_mapRemove s.strategies id hnd
        have hov : isOverwrite s (Op.delete caller id) = false := rfl
        rw [hov]
        refine ⟨⟨hnd2, ?_⟩, ?_⟩
        · show (mapRemove s.strategies id).length ≤ s.strategy_count - 1
          omega
        · show s.strategy_count - 1 + s.strategies.length =
            (mapRemove s.strategies id).length + s.strategy_count + 0
          omega
      · rw [delete_strategy_forbidden s caller id ex hm hc]
        exact ⟨⟨hnd, hle⟩, by simp [isOverwrite]; omega⟩

theorem exec_wf_accounting (ops : List Op) :
    ∀ s : YetifyStrategyStorage, Wf s →
      Wf (exec s ops) ∧
      (exec s ops).strategy_count + s.strategies.length =
        (exec s ops).strategies.length + s.strategy_count + overwrites s ops := by
  induction ops with
  | nil =>
    intro s hs
    exact ⟨hs, by simp [exec, overwrites]; omega⟩
  | cons op ops ih =>
    intro s hs
    obtain ⟨hw1, he1⟩ := step_wf_accounting s op hs
    obtain ⟨hw2, he2⟩ := ih (step s op) hw1
    have hx : exec s (op :: ops) = exec (step s op) ops := rfl
    have hov : overwrites s (op :: ops) =
        (if isOverwrite s op then 1 else 0) + overwrites (step s op) ops := rfl
    refine ⟨hx ▸ hw2, ?_⟩
    rw [hx, hov]
    omega

theorem wf_initState : Wf initState := by
  constructor <;> simp [initState, mapKeys]

theorem exec_initState_wf (ops : List Op) : Wf (exec initState ops) :=
  (exec_wf_accounting ops initState wf_initState).1

theorem count_eq_length_add_overwrites (ops : List Op) :
    (exec initState ops).strategy_count =
      (exec initState ops).strategies.length + overwrites initState ops := by
  have h := (exec_wf_accounting ops initState wf_initState).2
  simpa [initState] using h

/-! ### Concrete identities and records used in witnesses -/

def aliceId : AccountId := "alice"

def bobId : AccountId := "bob"

def idA : String := "s1"

def goalA : String := "grow savings"

/-! ### C1 -/

def opsC1bad : List Op :=
  [Op.store aliceId 0 idA goalA, Op.store aliceId 1 idA goalA]

/-- C1 fails as stated: storing the same id twice from the empty catalog
leaves one entry in the mapping but a strategy count of two. -/
theorem C1_count_mismatch :
    total_strategies (exec initState opsC1bad) ≠
      (get_all_strategies (exec initState opsC1bad)).length ∧
    total_strategies (exec initState opsC1bad) = 2 ∧
    (get_all_strategies (exec initState opsC1bad)).length = 1 := by decide

/-- C1 (amended): after any sequence of calls from the empty catalog,
`total_strategies` equals the number of records returned by
`get_all_strategies` plus the number of store calls that overwrote an
existing id; in particular the two agree whenever no store call reused a
live id. -/
theorem C1_count_eq_entries_plus_overwrites (ops : List Op) :
    total_strategies (exec initState ops) =
      (get_all_strategies (exec initState ops)).length + overwrites initState ops ∧
    (overwrites initState ops = 0 →
      total_strategies (exec initState ops) =
        (get_all_strategies (exec initState ops)).length) := by
  have h := count_eq_length_add_overwrites ops
  constructor
  · simpa [total_strategies, get_all_strategies] using h
  · intro h0
    simp [total_strategies, get_all_strategies, h, h0]

def opsC1w : List Op :=
  [Op.store aliceId 0 idA goalA, Op.store aliceId 1 "s2" goalA]

/-- Witness for C1: a two-store sequence with distinct ids has no
overwrite and count equal to the number of entries. -/
theorem C1_witness :
    overwrites initState opsC1w = 0 ∧
    total_strategies (exec initState opsC1w) =
      (get_all_strategies (exec initState opsC1w)).length :=
  ⟨by decide, (C1_count_eq_entries_plus_overwrites opsC1w).2 (by decide)⟩

/-! ### C2 -/

/-- C2: updating a record whose creator differs from the caller returns
the Forbidden error, leaves the whole catalog state unchanged, and in
particular leaves the stored record exactly as it was. -/
theorem C2_update_non_creator_forbidden (s : YetifyStrategyStorage)
    (caller : AccountId) (d ex : StrategyData)
    (hget : mapGet s.strategies d.id = some ex)
    (hne : ex.creator ≠ caller) :
    update_strategy s caller (Except.ok d) = (s, errForbiddenUpdate) ∧
    get_strategy (update_strategy s caller (Except.ok d)).1 d.id = some ex := by
  have h := update_strategy_forbidden s caller d ex hget hne
  refine ⟨h, ?_⟩
  rw [h]
  exact hget

def recC2 : StrategyData :=
  { id := idA, goal := goalA, chains := [], protocols := [], steps := [],
    risk_level := "medium", estimated_apy := none, estimated_tvl := none,
    confidence := none, reasoning := none, warnings := none,
    creator := aliceId, created_at := 5 }

def stC2 : YetifyStrategyStorage :=
  { strategies := [(idA, recC2)], strategy_count := 1 }

def payloadC2 : StrategyData :=
  { recC2 with goal := "drain funds", creator := bobId }

/-- Witness for C2: bob cannot update alice's record. -/
theorem C2_witness :
    update_strategy stC2 bobId (Except.ok payloadC2) = (stC2, errForbiddenUpdate) ∧
    get_strategy (update_strategy stC2 bobId (Except.ok payloadC2)).1 payloadC2.id =
      some recC2 :=
  C2_update_non_creator_forbidden stC2 bobId payloadC2 recC2 (by decide) (by decide)

/-! ### C3 -/

/-- C3: a successful update by the creator stores the payload record with
its `creator` and `created_at` forced back to the original values — even
when the payload carried different ones — and every other field taken
wholesale from the payload. -/
theorem C3_update_preserves_provenance (s : YetifyStrategyStorage)
    (caller : AccountId) (d ex : StrategyData)
    (hget : mapGet s.strategies d.id = some ex)
    (hc : ex.creator = caller) :
    get_strategy (update_strategy s caller (Except.ok d)).1 d.id =
      some { d with creator := ex.creator, created_at := ex.created_at } ∧
    (get_strategy (update_strategy s caller (Except.ok d)).1 d.id).map
      StrategyData.creator = some ex.creator ∧
    (get_strategy (update_strategy s caller (Except.ok d)).1 d.id).map
      StrategyData.created_at = some ex.created_at ∧
    (update_strategy s caller (Except.ok d)).2 = msgUpdated d.id := by
  have h := update_strategy_ok s caller d ex hget hc
  have hg : get_strategy (update_strategy s caller (Except.ok d)).1 d.id =
      some { d with creator := ex.creator, created_at := ex.created_at } := by
    rw [h]
    exact mapGet_mapInsert_self s.strategies d.id _
  refine ⟨hg, ?_, ?_, by rw [h]⟩
  · rw [hg]
    rfl
  · rw [hg]
    rfl

def recC3 : StrategyData :=
  { id := idA, goal := goalA, chains := [], protocols := [], steps := [],
    risk_level := "medium", estimated_apy := none, estimated_tvl := none,
    confidence := none, reasoning := none, warnings := none,
    creator := aliceId, created_at := 5 }

def stC3 : YetifyStrategyStorage :=
  { strategies := [(idA, recC3)], strategy_count := 1 }

def payloadC3 : StrategyData :=
  { recC3 with risk_level := "high", creator := bobId, created_at := 999 }

/-- Witness for C3: alice updates her record with a payload that claims a
different creator and creation time; both are discarded. -/
theorem C3_witness :
    get_strategy (update_strategy stC3 aliceId (Except.ok payloadC3)).1 payloadC3.id =
      some { payloadC3 with creator := recC3.creator, created_at := recC3.created_at } ∧
    (get_strategy (update_strategy stC3 aliceId (Except.ok payloadC3)).1
      payloadC3.id).map StrategyData.creator = some recC3.creator := by
  obtain ⟨h1, h2, _, _⟩ :=
    C3_update_preserves_provenance stC3 aliceId payloadC3 recC3 (by decide) (by decide)
  exact ⟨h1, h2⟩

/-! ### C4 -/

def opsC4bad : List Op :=
  [Op.store aliceId 0 idA goalA, Op.store aliceId 1 idA goalA]

/-- C4 fails as stated: after storing the same id twice, one record
remains; its creator deletes it successfully, yet the count lands at 1,
not 0 — the count does not return to zero on deletion of the last
remaining record. -/
theorem C4_last_delete_nonzero_count :
    (exec initState opsC4bad).strategies.length = 1 ∧
    (delete_strategy (exec initState opsC4bad) aliceId idA).2 = msgDeleted idA 1 ∧
    (delete_strategy (exec initState opsC4bad) aliceId idA).1.strategies = [] ∧
    total_strategies (delete_strategy (exec initState opsC4bad) aliceId idA).1 ≠ 0 := by
  decide

/-- C4 (amended): from the empty catalog, deleting a missing id (so in
particular deleting from an empty catalog) returns NotFound with no
mutation; a successful delete always finds a count of at least 1 and
decrements it by exactly one, so the count never underflows; and deleting
the last remaining record leaves the count at exactly zero provided no
store call in the history overwrote an existing id. -/
theorem C4_delete_never_underflows (ops : List Op) (caller : AccountId)
    (id : String) :
    (mapGet (exec initState ops).strategies id = none →
      delete_strategy (exec initState ops) caller id =
        (exec initState ops, errNotFound id)) ∧
    (∀ ex : StrategyData, mapGet (exec initState ops).strategies id = some ex →
      ex.creator = caller →
      1 ≤ total_strategies (exec initState ops) ∧
      total_strategies (delete_strategy (exec initState ops) caller id).1 + 1 =
        total_strategies (exec initState ops) ∧
      (overwrites initState ops = 0 → (exec initState ops).strategies.length = 1 →
        total_strategies (delete_strategy (exec initState ops) caller id).1 = 0)) := by
  constructor
  · intro hnone
    exact delete_strategy_not_found (exec initState ops) caller id hnone
  · intro ex hget hc
    have hcnt := count_eq_length_add_overwrites ops
    have hone := one_le_length_of_mapGet_some (exec initState ops).strategies id ex hget
    have h := delete_strategy_ok (exec initState ops) caller id ex hget hc
    have h1 : 1 ≤ total_strategies (exec initState ops) := by
      show 1 ≤ (exec initState ops).strategy_count
      omega
    refine ⟨h1, ?_, ?_⟩
    · rw [h]
      show (exec initState ops).strategy_count - 1 + 1 =
        (exec initState ops).strategy_count
      omega
    · intro hov hlen
      rw [h]
      show (exec initState ops).strategy_count - 1 = 0
      omega

def opsC4w : List Op := [Op.store aliceId 0 idA goalA]

def recC4w : StrategyData :=
  { id := idA, goal := goalA, chains := [], protocols := [], steps := [],
    risk_level := "medium", estimated_apy := none, estimated_tvl := none,
    confidence := none, reasoning := none, warnings := none,
    creator := aliceId, created_at := 0 }

/-- Witness for C4: with a single fresh store, deleting the only record
finds count 1, decrements it, and leaves it at exactly zero. -/
theorem C4_witness :
    1 ≤ total_strategies (exec initState opsC4w) ∧
    total_strategies (delete_strategy (exec initState opsC4w) aliceId idA).1 + 1 =
      total_strategies (exec initState opsC4w) ∧
    total_strategies (delete_strategy (exec initState opsC4w) aliceId idA).1 = 0 := by
  obtain ⟨h1, h2, h3⟩ :=
    (C4_delete_never_underflows opsC4w aliceId idA).2 recC4w (by decide) (by decide)
  exact ⟨h1, h2, h3 (by decide) (by decide)⟩

/-! ### C5 -/

/-- C5: on every error outcome — malformed payload, empty id, id not
found, or forbidden caller — each of the three mutating operations
returns the catalog state (mapping and count both) exactly as it was. -/
theorem C5_failed_ops_preserve_state (s : YetifyStrategyStorage)
    (caller : AccountId) (ts : Nat) (e : String) (d : StrategyData)
    (id : String) :
    ((store_complete_strategy s caller ts (Except.error e)).1 = s) ∧
    (d.id = "" → (store_complete_strategy s caller ts (Except.ok d)).1 = s) ∧
    ((update_strategy s caller (Except.error e)).1 = s) ∧
    (mapGet s.strategies d.id = none → (update_strategy s caller (Except.ok d)).1 = s) ∧
    (∀ ex : StrategyData, mapGet s.strategies d.id = some ex → ex.creator ≠ caller →
      (update_strategy s caller (Except.ok d)).1 = s) ∧
    (mapGet s.strategies id = none → (delete_strategy s caller id).1 = s) ∧
    (∀ ex : StrategyData, mapGet s.strategies id = some ex → ex.creator ≠ caller →
      (delete_strategy s caller id).1 = s) := by
  refine ⟨rfl, ?_, rfl, ?_, ?_, ?_, ?_⟩
  · intro hid
    rw [store_complete_strategy_empty_id s caller ts d hid]
  · intro hnone
    rw [update_strategy_not_found s caller d hnone]
  · intro ex hget hne
    rw [update_strategy_forbidden s caller d ex hget hne]
  · intro hnone
    rw [delete_strategy_not_found s caller id hnone]
  · intro ex hget hne
    rw [delete_strategy_forbidden s caller id ex hget hne]

def recC5 : StrategyData :=
  { id := idA, goal := goalA, chains := [], protocols := [], steps := [],
    risk_level := "medium", estimated_apy := none, estimated_tvl := none,
    confidence := none, reasoning := none, warnings := none,
    creator := aliceId, created_at := 5 }

def stC5 : YetifyStrategyStorage :=
  { strategies := [(idA, recC5)], strategy_count := 1 }

def payloadC5 : StrategyData := { recC5 with goal := "other" }

def payloadC5empty : StrategyData := { recC5 with id := "" }

/-- Witness for C5: an empty-id create, a forbidden update and a
forbidden delete each leave a one-record catalog untouched. -/
theorem C5_witness :
    (store_complete_strategy stC5 aliceId 7 (Except.ok payloadC5empty)).1 = stC5 ∧
    (update_strategy stC5 bobId (Except.ok payloadC5)).1 = stC5 ∧
    (delete_strategy stC5 bobId idA).1 = stC5 := by
  refine ⟨?_, ?_, ?_⟩
  · exact (C5_failed_ops_preserve_state stC5 aliceId 7 "" payloadC5empty idA).2.1
      (by decide)
  · exact (C5_failed_ops_preserve_state stC5 bobId 7 "" payloadC5 idA).2.2.2.2.1
      recC5 (by decide) (by decide)
  · exact (C5_failed_ops_preserve_state stC5 bobId 7 "" payloadC5 idA).2.2.2.2.2.2
      recC5 (by decide) (by decide)

/-! ### C6 -/

/-- C6: a successful `store_complete_strategy` stores the payload with
`creator` set to the authenticated caller and `created_at` set to the
call timestamp — whatever the payload carried in those fields — inserts
with overwrite semantics, increments the count, and returns the
confirmation naming the id and the new total. -/
theorem C6_store_complete_success (s : YetifyStrategyStorage)
    (caller : AccountId) (ts : Nat) (d : StrategyData) (hid : d.id ≠ "") :
    store_complete_strategy s caller ts (Except.ok d) =
      ({ strategies := mapInsert s.strategies d.id
           { d with creator := caller, created_at := ts },
         strategy_count := s.strategy_count + 1 },
       msgStoredComplete d.id (s.strategy_count + 1)) ∧
    get_strategy (store_complete_strategy s caller ts (Except.ok d)).1 d.id =
      some { d with creator := caller, created_at := ts } ∧
    total_strategies (store_complete_strategy s caller ts (Except.ok d)).1 =
      total_strategies s + 1 := by
  have h := store_complete_strategy_ok s caller ts d hid
  refine ⟨h, ?_, ?_⟩
  · rw [h]
    exact mapGet_mapInsert_self s.strategies d.id _
  · rw [h]
    rfl

def payloadC6 : StrategyData :=
  { id := idA, goal := goalA, chains := ["near"], protocols := ["ref"],
    steps := [], risk_level := "high", estimated_apy := none,
    estimated_tvl := none, confidence := none, reasoning := none,
    warnings := none, creator := bobId, created_at := 123456 }

/-- Witness for C6: the stored record carries alice and the call
timestamp, not the bob identity and timestamp smuggled in the payload. -/
theorem C6_witness :
    get_strategy (store_complete_strategy initState aliceId 42
        (Except.ok payloadC6)).1 payloadC6.id =
      some { payloadC6 with creator := aliceId, created_at := 42 } ∧
    total_strategies (store_complete_strategy initState aliceId 42
        (Except.ok payloadC6)).1 = total_strategies initState + 1 := by
  obtain ⟨_, h2, h3⟩ :=
    C6_store_complete_success initState aliceId 42 payloadC6 (by decide)
  exact ⟨h2, h3⟩

/-! ### C7 -/

/-- C7: in any state reached from the empty catalog, the creator of a
stored record can delete it: the call returns the success message,
`get_strategy` then returns none, and the total drops by exactly one. -/
theorem C7_delete_by_creator (ops : List Op) (caller : AccountId)
    (id : String) (ex : StrategyData)
    (hget : mapGet (exec initState ops).strategies id = some ex)
    (hc : ex.creator = caller) :
    (delete_strategy (exec initState ops) caller id).2 =
      msgDeleted id ((exec initState ops).strategy_count - 1) ∧
    get_strategy (delete_strategy (exec initState ops) caller id).1 id = none ∧
    total_strategies (delete_strategy (exec initState ops) caller id).1 + 1 =
      total_strategies (exec initState ops) := by
  have hwf := exec_initState_wf ops
  have hcnt := count_eq_length_add_overwrites ops
  have hone := one_le_length_of_mapGet_some (exec initState ops).strategies id ex hget
  have h := delete_strategy_ok (exec initState ops) caller id ex hget hc
  refine ⟨by rw [h], ?_, ?_⟩
  · rw [h]
    show mapGet (mapRemove (exec initState ops).strategies id) id = none
    exact mapGet_mapRemove_self (exec initState ops).strategies id hwf.1
  · rw [h]
    show (exec initState ops).strategy_count - 1 + 1 =
      (exec initState ops).strategy_count
    omega

def opsC7w : List Op := [Op.store aliceId 3 idA goalA]

def recC7w : StrategyData :=
  { id := idA, goal := goalA, chains := [], protocols := [], steps := [],
    risk_level := "medium", estimated_apy := none, estimated_tvl := none,
    confidence := none, reasoning := none, warnings := none,
    creator := aliceId, created_at := 3 }

/-- Witness for C7: alice deletes her only record; the lookup comes back
empty and the count drops from 1 to 0. -/
theorem C7_witness :
    get_strategy (delete_strategy (exec initState opsC7w) aliceId idA).1 idA = none ∧
    total_strategies (delete_strategy (exec initState opsC7w) aliceId idA).1 + 1 =
      total_strategies (exec initState opsC7w) := by
  obtain ⟨_, h2, h3⟩ :=
    C7_delete_by_creator opsC7w aliceId idA recC7w (by decide) (by decide)
  exact ⟨h2, h3⟩

/-! ### C8 -/

/-- C8: `store_strategy` followed by `get_strategy` on the same id
returns the minimal record: the given id and goal, risk level "medium",
empty chains/protocols/steps, every optional field unset, and the calling
identity as creator. -/
theorem C8_store_then_get (s : YetifyStrategyStorage) (caller : AccountId)
    (ts : Nat) (id goal : String) :
    get_strategy (store_strategy s caller ts id goal).1 id =
      some { id := id, goal := goal, chains := [], protocols := [], steps := [],
             risk_level := "medium", estimated_apy := none, estimated_tvl := none,
             confidence := none, reasoning := none, warnings := none,
             creator := caller, created_at := ts } := by
  rw [store_strategy_eq]
  exact mapGet_mapInsert_self s.strategies id _

/-! ### C9 -/

/-- C9: in every state reached from the empty catalog the count dominates
the number of entries; a minimal create increments the count by one while
the mapping grows by at most one (by zero on an overwrite), a full create
with a non-empty id likewise increments the count by one, an update never
changes count or mapping size, and a successful delete decrements both by
exactly one. -/
theorem C9_count_dominates_entries (ops : List Op) :
    (exec initState ops).strategies.length ≤
      total_strategies (exec initState ops) ∧
    (∀ (caller : AccountId) (ts : Nat) (id goal : String),
      total_strategies (store_strategy (exec initState ops) caller ts id goal).1 =
        total_strategies (exec initState ops) + 1 ∧
      (exec initState ops).strategies.length ≤
        (store_strategy (exec initState ops) caller ts id goal).1.strategies.length ∧
      (store_strategy (exec initState ops) caller ts id goal).1.strategies.length ≤
        (exec initState ops).strategies.length + 1) ∧
    (∀ (caller : AccountId) (ts : Nat) (d : StrategyData), d.id ≠ "" →
      total_strategies
          (store_complete_strategy (exec initState ops) caller ts (Except.ok d)).1 =
        total_strategies (exec initState ops) + 1) ∧
    (∀ (caller : AccountId) (parsed : Except String StrategyData),
      total_strategies (update_strategy (exec initState ops) caller parsed).1 =
        total_strategies (exec initState ops) ∧
      (update_strategy (exec initState ops) caller parsed).1.strategies.length =
        (exec initState ops).strategies.length) ∧
    (∀ (caller : AccountId) (id : String) (ex : StrategyData),
      mapGet (exec initState ops).strategies id = some ex → ex.creator = caller →
      total_strategies (delete_strategy (exec initState ops) caller id).1 + 1 =
        total_strategies (exec initState ops) ∧
      (delete_strategy (exec initState ops) caller id).1.strategies.length + 1 =
        (exec initState ops).strategies.length) := by
  have hwf := exec_initState_wf ops
  refine ⟨hwf.2, ?_, ?_, ?_, ?_⟩
  · intro caller ts id goal
    rw [store_strategy_eq]
    refine ⟨rfl, ?_⟩
    by_cases hmem : id ∈ mapKeys (exec initState ops).strategies
    · have hlen := length_mapInsert_of_mem (exec initState ops).strategies id
        { id := id, goal := goal, chains := [], protocols := [], steps := [],
          risk_level := "medium", estimated_apy := none, estimated_tvl := none,
          confidence := none, reasoning := none, warnings := none,
          creator := caller, created_at := ts } hmem
      constructor
      · show (exec initState ops).strategies.length ≤ (mapInsert _ id _).length
        omega
      · show (mapInsert _ id _).length ≤ (exec initState ops).strategies.length + 1
        omega
    · have hlen := length_mapInsert_of_not_mem (exec initState ops).strategies id
        { id := id, goal := goal, chains := [], protocols := [], steps := [],
          risk_level := "medium", estimated_apy := none, estimated_tvl := none,
          confidence := none, reasoning := none, warnings := none,
          creator := caller, created_at := ts } hmem
      constructor
      · show (exec initState ops).strategies.length ≤ (mapInsert _ id _).length
        omega
      · show (mapInsert _ id _).length ≤ (exec initState ops).strategies.length + 1
        omega
  · intro caller ts d hid
    rw [store_complete_strategy_ok (exec initState ops) caller ts d hid]
    rfl
  · intro caller parsed
    cases parsed with
    | error e => exact ⟨rfl, rfl⟩
    | ok d =>
      cases hm : mapGet (exec initState ops).strategies d.id with
      | none =>
        rw [update_strategy_not_found (exec initState ops) caller d hm]
        exact ⟨rfl, rfl⟩
      | some ex =>
        by_cases hc : ex.creator = caller
        · rw [update_strategy_ok (exec initState ops) caller d ex hm hc]
          have hmem : d.id ∈ mapKeys (exec initState ops).strategies := by
            rw [← mapGet_isSome_iff, hm]
            rfl
          have hlen := length_mapInsert_of_mem (exec initState ops).strategies d.id
            { d with creator := ex.creator, created_at := ex.created_at } hmem
          exact ⟨rfl, hlen⟩
        · rw [update_strategy_forbidden (exec initState ops) caller d ex hm hc]
          exact ⟨rfl, rfl⟩
  · intro caller id ex hget hc
    have hone := one_le_length_of_mapGet_some (exec initState ops).strategies id ex hget
    have hne : ¬ mapGet (exec initState ops).strategies id = none := by
      rw [hget]
      simp
    have hlen := length_mapRemove_of_mem (exec initState ops).strategies id hne
    have h := delete_strategy_ok (exec initState ops) caller id ex hget hc
    have hle := hwf.2
    constructor
    · rw [h]
      show (exec initState ops).strategy_count - 1 + 1 =
        (exec initState ops).strategy_count
      omega
    · rw [h]
      exact hlen

def opsC9w : List Op := [Op.store aliceId 2 idA goalA]

def recC9w : StrategyData :=
  { id := idA, goal := goalA, chains := [], protocols := [], steps := [],
    risk_level := "medium", estimated_apy := none, estimated_tvl := none,
    confidence := none, reasoning := none, warnings := none,
    creator := aliceId, created_at := 2 }

/-- Witness for C9: after one fresh store the count dominates the entries
and the creator's delete decrements both by one. -/
theorem C9_witness :
    (exec initState opsC9w).strategies.length ≤
      total_strategies (exec initState opsC9w) ∧
    total_strategies (delete_strategy (exec initState opsC9w) aliceId idA).1 + 1 =
      total_strategies (exec initState opsC9w) ∧
    (delete_strategy (exec initState opsC9w) aliceId idA).1.strategies.length + 1 =
      (exec initState opsC9w).strategies.length := by
  obtain ⟨h1, _, _, _, h5⟩ := C9_count_dominates_entries opsC9w
  obtain ⟨h2, h3⟩ := h5 aliceId idA recC9w (by decide) (by decide)
  exact ⟨h1, h2, h3⟩

/-! ### C10 -/

/-- C10: `store_strategy` performs no non-emptiness check on the id: with
the empty string as id it succeeds for every caller and goal, inserting a
record keyed by the empty string and incrementing the count, so a
subsequent `get_strategy` on the empty string returns that record —
whereas `store_complete_strategy` rejects any payload whose id is empty. -/
theorem C10_store_strategy_accepts_empty_id (s : YetifyStrategyStorage)
    (caller : AccountId) (ts : Nat) (goal : String) (id : String)
    (_hid : id = "") (d : StrategyData) (hd : d.id = "") :
    (store_strategy s caller ts id goal).2 = msgStored id ∧
    total_strategies (store_strategy s caller ts id goal).1 =
      total_strategies s + 1 ∧
    get_strategy (store_strategy s caller ts id goal).1 id =
      some { id := id, goal := goal, chains := [], protocols := [], steps := [],
             risk_level := "medium", estimated_apy := none, estimated_tvl := none,
             confidence := none, reasoning := none, warnings := none,
             creator := caller, created_at := ts } ∧
    store_complete_strategy s caller ts (Except.ok d) = (s, errIdRequired) := by
  refine ⟨rfl, rfl, ?_, ?_⟩
  · rw [store_strategy_eq]
    exact mapGet_mapInsert_self s.strategies id _
  · exact store_complete_strategy_empty_id s caller ts d hd

def emptyId : String := ""

def payloadC10 : StrategyData :=
  { id := emptyId, goal := goalA, chains := [], protocols := [], steps := [],
    risk_level := "medium", estimated_apy := none, estimated_tvl := none,
    confidence := none, reasoning := none, warnings := none,
    creator := bobId, created_at := 9 }

/-- Witness for C10: from the empty catalog, the minimal create with the
empty-string id succeeds and the record is retrievable under that key,
while the full create rejects the same id. -/
theorem C10_witness :
    (store_strategy initState aliceId 4 emptyId goalA).2 = msgStored emptyId ∧
    total_strategies (store_strategy initState aliceId 4 emptyId goalA).1 =
      total_strategies initState + 1 ∧
    get_strategy (store_strategy initState aliceId 4 emptyId goalA).1 emptyId =
      some { id := emptyId, goal := goalA, chains := [], protocols := [],
             steps := [], risk_level := "medium", estimated_apy := none,
             estimated_tvl := none, confidence := none, reasoning := none,
             warnings := none, creator := aliceId, created_at := 4 } ∧
    store_complete_strategy initState aliceId 4 (Except.ok payloadC10) =
      (initState, errIdRequired) :=
  C10_store_strategy_accepts_empty_id initState aliceId 4 goalA emptyId
    (by decide) payloadC10 (by decide)
